import Mathlib

/-!
Verification development for the HR-Copilot multi-agent orchestration core.

Shallow embedding of the Python source:
  - src/models/schemas.py        (TaskType, AgentResponse, AgentTask, messages)
  - src/models/conversation.py   (ConversationManager)
  - src/services/memory_service.py (MemoryService short-term store)
  - src/services/llm_service.py  (retry loop of LLMService.generate_response)
  - src/agents/task_decomposer.py (validation, priority sort, execution plan)
  - src/agents/orchestrator.py   (dispatch loop, response synthesis, process_request)

Python conventions mapped to Lean:
  - dictionaries keyed by strings become functions String → Option _ or
    association lists, with explicit overwrite-on-update;
  - datetime values become Nat instants passed explicitly (a `now` argument);
  - raised exceptions become Except.error carrying the message;
  - heterogeneous dict values become the inductive CtxVal.
-/

namespace HRCopilot

/-- The closed task-type enumeration of src/models/schemas.py (TaskType). -/
inductive TaskType where
  | job_description
  | resume_screening
  | interview_scheduling
  | email_communication
  | analytics
  | offer_generation
deriving DecidableEq

/-- The `.value` of the str-Enum member (schemas.py lines 28-35). -/
def TaskType.value : TaskType → String
  | .job_description => "job_description"
  | .resume_screening => "resume_screening"
  | .interview_scheduling => "interview_scheduling"
  | .email_communication => "email_communication"
  | .analytics => "analytics"
  | .offer_generation => "offer_generation"

/-- Python str() of the enum member, as interpolated into f-strings. -/
def TaskType.pyStr : TaskType → String
  | .job_description => "TaskType.JOB_DESCRIPTION"
  | .resume_screening => "TaskType.RESUME_SCREENING"
  | .interview_scheduling => "TaskType.INTERVIEW_SCHEDULING"
  | .email_communication => "TaskType.EMAIL_COMMUNICATION"
  | .analytics => "TaskType.ANALYTICS"
  | .offer_generation => "TaskType.OFFER_GENERATION"

/-- The dict an agent's execute() returns: success, message, optional error,
next_actions, and any of the well-known payload keys (job_id etc.). -/
structure HandlerResult where
  success : Bool := true
  message : Option String := none
  error : Option String := none
  next_actions : List String := []
  data : List (String × String) := []
deriving DecidableEq

/-- One element of the results list built by OrchestratorAgent._execute_tasks:
either the no-agent failure dict, the caught-exception failure dict, or
the task_id/task_type dict spread with the handler's result. task_type is
present exactly on the normal-return branch. -/
structure TaskResult where
  task_id : String
  task_type : Option String := none
  success : Bool := false
  message : Option String := none
  error : Option String := none
  next_actions : List String := []
  data : List (String × String) := []
deriving DecidableEq

/-- Heterogeneous Python dict/JSON values as they occur in contexts and
memory entries of this subsystem. -/
inductive CtxVal where
  | str : String → CtxVal
  | result : HandlerResult → CtxVal
  | vlist : List CtxVal → CtxVal
  | vdict : List (String × CtxVal) → CtxVal
  | snapshot : String → List TaskResult → CtxVal

/-- A Python dict[str, Any] read through .get: a partial map. -/
abbrev Context := String → Option CtxVal

/-- The empty dict. -/
def emptyCtx : Context := fun _ => none

/-- dict[k] = v (overwrite). -/
def ctxInsert (c : Context) (k : String) (v : CtxVal) : Context :=
  fun q => if q = k then some v else c q

/-- Python slicing l[-m:] on a list, for m : Nat.  For m = 0 Python yields
the WHOLE list (l[-0:] is l[0:]), otherwise the last m elements. -/
def pySliceLast {α : Type} (l : List α) (m : Nat) : List α :=
  if m = 0 then l else l.drop (l.length - m)

/-- str.join: joins with a separator, empty string on the empty list. -/
def joinSep (sep : String) : List String → String
  | [] => ""
  | [s] => s
  | s :: rest => s ++ sep ++ joinSep sep rest

/-- Python truthiness of an optional string (absent and "" are falsy). -/
def strTruthy : Option String → Bool
  | none => false
  | some s => !(s == "")

/-- Lookup in an association-list dict. -/
def lookupStr {α : Type} (l : List (String × α)) (k : String) : Option α :=
  (l.find? (fun p => p.1 == k)).map Prod.snd

/-- ConversationMessage of schemas.py: role, content, timestamp, metadata. -/
structure ConversationMessage where
  role : String
  content : String
  timestamp : Nat
  metadata : Option (List (String × CtxVal))

/-- ConversationState of schemas.py. -/
structure ConversationState where
  session_id : String
  messages : List ConversationMessage
  context : List (String × CtxVal)
  active_tasks : List String
  created_at : Nat
  updated_at : Nat

/-- A freshly constructed ConversationState(session_id=sid). -/
def ConversationState.init (sid : String) (now : Nat) : ConversationState :=
  ⟨sid, [], [], [], now, now⟩

/-- ConversationManager of src/models/conversation.py: a map from session id
to state plus the configured max_history (default 20). -/
structure ConversationManager where
  sessions : String → Option ConversationState
  max_history : Nat

/-- ConversationManager.add_message (conversation.py lines 27-52): implicit
session creation, append, timestamp update, then truncation to the last
max_history messages when over the cap (Python slice semantics). -/
def add_message (M : ConversationManager) (sid role content : String)
    (metadata : Option (List (String × CtxVal))) (now : Nat) : ConversationManager :=
  let st := (M.sessions sid).getD (ConversationState.init sid now)
  let msg : ConversationMessage := ⟨role, content, now, some (metadata.getD [])⟩
  let msgs := st.messages ++ [msg]
  let msgs2 := if M.max_history < msgs.length then pySliceLast msgs M.max_history else msgs
  let st2 := { st with messages := msgs2, updated_at := now }
  { M with sessions := fun q => if q = sid then some st2 else M.sessions q }

/-- ConversationManager.get_messages: [] for a missing session; the last
`limit` messages when limit is given and truthy (limit=0 is falsy). -/
def get_messages (M : ConversationManager) (sid : String) (limit : Option Nat) :
    List ConversationMessage :=
  match M.sessions sid with
  | none => []
  | some st =>
    match limit with
    | none => st.messages
    | some n => pySliceLast st.messages n

/-- One short-term memory entry (memory_service.py store_short_term). -/
structure MemEntry where
  key : String
  value : CtxVal
  timestamp : Nat
  expires_at : Nat

/-- MemoryService state: the per-session short-term list, the long-term map
and the per-session context cache (context type ↦ data dict and timestamp). -/
structure MemoryState where
  short_term : String → Option (List MemEntry)
  long_term : String → Option (List (String × CtxVal))
  context_cache : String → Option (List (String × (List (String × CtxVal) × Nat)))

/-- MemoryService._cleanup_expired filtering (entry survives iff
expires_at > now, strictly). -/
def cleanup_expired (entries : List MemEntry) (now : Nat) : List MemEntry :=
  entries.filter (fun e => decide (now < e.expires_at))

/-- Overwrite one session's short-term entry list. -/
def MemoryState.setShort (st : MemoryState) (sid : String) (es : List MemEntry) :
    MemoryState :=
  { st with short_term := fun q => if q = sid then some es else st.short_term q }

/-- MemoryService.store_short_term (lines 17-36): implicit session creation,
append of the new entry with expires_at = now + ttl, then the lazy sweep. -/
def store_short_term (st : MemoryState) (sid key : String) (value : CtxVal)
    (now ttl_minutes : Nat) : MemoryState :=
  let cur := (st.short_term sid).getD []
  let entry : MemEntry := ⟨key, value, now, now + ttl_minutes⟩
  st.setShort sid (cleanup_expired (cur ++ [entry]) now)

/-- MemoryService.get_short_term with a key (lines 38-53): sweep, then scan
the entry list in reverse for the first match.  Returns the value and the
post-sweep state (the sweep mutates the store). -/
def get_short_term_key (st : MemoryState) (sid key : String) (now : Nat) :
    Option CtxVal × MemoryState :=
  match st.short_term sid with
  | none => (none, st)
  | some entries =>
    let cleaned := cleanup_expired entries now
    (((cleaned.reverse).find? (fun e => e.key == key)).map MemEntry.value,
      st.setShort sid cleaned)

/-- MemoryService.get_short_term without a key (lines 38-58): sweep, then
list {key, value} projections of all surviving entries. -/
def get_short_term_all (st : MemoryState) (sid : String) (now : Nat) :
    List (String × CtxVal) × MemoryState :=
  match st.short_term sid with
  | none => ([], st)
  | some entries =>
    let cleaned := cleanup_expired entries now
    (cleaned.map (fun e => (e.key, e.value)), st.setShort sid cleaned)

/-- MemoryService.get_context with no context_type: the {ctype: data} dict,
or none for a missing session. -/
def get_context_all (st : MemoryState) (sid : String) :
    Option (List (String × List (String × CtxVal))) :=
  match st.context_cache sid with
  | none => none
  | some entries => some (entries.map (fun p => (p.1, p.2.1)))

/-- MemoryService.get_relevant_context (lines 109-127): the last 5 short-term
listings under "recent_interactions" (when any survive), updated with the
full context snapshot.  Returns the merged dict and the post-sweep state. -/
def get_relevant_context (st : MemoryState) (sid : String) (_query : String)
    (now : Nat) : Context × MemoryState :=
  let res := get_short_term_all st sid now
  let recent := res.1
  let base : Context :=
    if recent.isEmpty then fun _ => none
    else fun k =>
      if k = "recent_interactions" then
        some (CtxVal.vlist ((pySliceLast recent 5).map
          (fun p => CtxVal.vdict [("key", CtxVal.str p.1), ("value", p.2)])))
      else none
  let merged : Context :=
    match get_context_all res.2 sid with
    | none => base
    | some entries => fun k =>
        match lookupStr entries k with
        | some d => some (CtxVal.vdict d)
        | none => base k
  (merged, res.2)

/-- One decomposed task (schemas.py AgentTask).  The Python input_data dict
{user_request, dependencies, input_requirements} is flattened into fields;
user_request is never read downstream. -/
structure AgentTask where
  task_id : String
  task_type : TaskType
  description : String
  dependencies : List String
  input_requirements : List String
  priority : Nat
deriving DecidableEq

/-- One entry of the plan's task dict list built by
TaskDecomposerAgent.generate_execution_plan (task_decomposer.py lines
139-147).  The dict carries the type's string value; _execute_tasks converts
it back with TaskType(task['type']), which round-trips, so the field keeps
the enum type. -/
structure PlanTask where
  task_id : String
  type : TaskType
  description : String
  priority : Nat
deriving DecidableEq

/-- TaskDecomposerAgent.validate_task_sequence (lines 89-101): every
dependency reference of every task must be one of the plan's task ids. -/
def validate_task_sequence (tasks : List AgentTask) : Bool :=
  let task_ids := tasks.map (fun t => t.task_id)
  tasks.all (fun t => t.dependencies.all (fun d => task_ids.contains d))

/-- Insertion step of a stable ascending sort by priority. -/
def insertByPriority (a : AgentTask) : List AgentTask → List AgentTask
  | [] => [a]
  | b :: l => if a.priority ≤ b.priority then a :: b :: l else b :: insertByPriority a l

/-- TaskDecomposerAgent.prioritize_tasks (lines 103-107):
sorted(tasks, key=lambda t: t.priority).  Python's sorted() is a stable
ascending sort; insertion sort realizes exactly that function (sortedness
and stability, proved below, determine the output uniquely). -/
def prioritize_tasks : List AgentTask → List AgentTask
  | [] => []
  | a :: l => insertByPriority a (prioritize_tasks l)

/-- Per-type minute costs of TaskDecomposerAgent._estimate_time. -/
def estimate_minutes : TaskType → Nat
  | .job_description => 2
  | .resume_screening => 3
  | .interview_scheduling => 1
  | .email_communication => 1
  | .analytics => 2
  | .offer_generation => 2

/-- TaskDecomposerAgent._estimate_time (lines 151-173). -/
def estimate_time (tasks : List AgentTask) : String :=
  let total := (tasks.map (fun t => estimate_minutes t.task_type)).sum
  if total < 5 then "Less than 5 minutes"
  else if total < 15 then "5-15 minutes"
  else "15+ minutes"

/-- The dict TaskDecomposerAgent.decompose returns: the converted AgentTask
list (ids task_1, task_2, ... assigned in emission order), the clarification
flag and its questions. -/
structure Decomposition where
  tasks : List AgentTask
  requires_clarification : Bool
  questions : List String

/-- The dict generate_execution_plan returns.  Its three shapes carry
different keys; in particular the invalid_sequence dict has NO 'tasks' key
(only status, error and plan=None). -/
inductive PlanOutcome where
  | needsClarification (questions : List String)
  | invalidSequence (error : String)
  | ready (total_tasks : Nat) (tasks : List PlanTask) (estimated_time : String)

/-- Projection of a plan task dict from an AgentTask (lines 140-145). -/
def AgentTask.toPlanTask (t : AgentTask) : PlanTask :=
  ⟨t.task_id, t.task_type, t.description, t.priority⟩

/-- TaskDecomposerAgent.generate_execution_plan (lines 109-149), starting
from the decomposition already obtained from the reasoning service. -/
def generate_execution_plan (d : Decomposition) : PlanOutcome :=
  if d.requires_clarification then .needsClarification d.questions
  else if !(validate_task_sequence d.tasks) then
    .invalidSequence "Task dependencies are invalid"
  else
    let pts := prioritize_tasks d.tasks
    .ready pts.length (pts.map AgentTask.toPlanTask) (estimate_time pts)

/-- A capability handler's execute(): may return a result dict or raise. -/
abbrev Handler := Context → Except String HandlerResult

/-- The static registry built in OrchestratorAgent.__init__ (orchestrator.py
lines 19-24): exactly the three entries for job_description,
resume_screening and interview_scheduling, parameterized over the three
agent singletons' behaviours. -/
def orchestrator_agents (jd sa ia : Handler) : TaskType → Option Handler
  | .job_description => some jd
  | .resume_screening => some sa
  | .interview_scheduling => some ia
  | _ => none

/-- The per-task input view {'user_request': context.get('user_request', ''),
**context} built at orchestrator.py lines 146-149: the running context,
with user_request defaulted to "" when absent. -/
def taskData (ctx : Context) : Context :=
  fun k =>
    match ctx k with
    | some v => some v
    | none => if k = "user_request" then some (CtxVal.str "") else none

/-- The deterministic context key f"task_{task_id}_result" (line 161). -/
def resultKey (id : String) : String := "task_" ++ id ++ "_result"

/-- The failure dict appended when no agent is registered for the type. -/
def noAgentResult (t : PlanTask) : TaskResult :=
  { task_id := t.task_id,
    error := some ("No agent found for task type: " ++ t.type.pyStr) }

/-- The failure dict appended when the handler raises (lines 163-168). -/
def raisedResult (t : PlanTask) (e : String) : TaskResult :=
  { task_id := t.task_id, error := some e }

/-- The dict {'task_id', 'task_type', **result} appended on normal return. -/
def okTaskResult (t : PlanTask) (r : HandlerResult) : TaskResult :=
  { task_id := t.task_id, task_type := some t.type.value, success := r.success,
    message := r.message, error := r.error, next_actions := r.next_actions,
    data := r.data }

/-- Recover the handler's dict from an ok-branch results entry. -/
def toHandlerResult (r : TaskResult) : HandlerResult :=
  ⟨r.success, r.message, r.error, r.next_actions, r.data⟩

/-- Outcome of the dispatch loop: the results list, the final shared
context, and the dispatch trace recording, for every task whose handler was
actually invoked, the task id and the exact input view passed to execute()
at that moment (in invocation order). -/
structure DispatchState where
  results : List TaskResult
  ctx : Context
  trace : List (String × Context)

/-- OrchestratorAgent._execute_tasks (orchestrator.py lines 121-170):
sequential dispatch; missing handler and raising handler each contribute a
failed result and the loop continues; a normal return stores the result in
the shared context under resultKey. -/
def execute_tasks (agents : TaskType → Option Handler) :
    List PlanTask → Context → DispatchState
  | [], ctx => ⟨[], ctx, []⟩
  | t :: rest, ctx =>
    match agents t.type with
    | none =>
      let s := execute_tasks agents rest ctx
      ⟨noAgentResult t :: s.results, s.ctx, s.trace⟩
    | some h =>
      let input := taskData ctx
      match h input with
      | .ok r =>
        let s := execute_tasks agents rest
          (ctxInsert ctx (resultKey t.task_id) (CtxVal.result r))
        ⟨okTaskResult t r :: s.results, s.ctx, (t.task_id, input) :: s.trace⟩
      | .error e =>
        let s := execute_tasks agents rest ctx
        ⟨raisedResult t e :: s.results, s.ctx, (t.task_id, input) :: s.trace⟩

/-- The 'data' payload of an AgentResponse: either the errors list of the
total-failure branch or the collected well-known fields. -/
inductive RespData where
  | errors : List (Option String) → RespData
  | fields : List (String × String) → RespData
deriving DecidableEq

/-- schemas.py AgentResponse. -/
structure AgentResponse where
  success : Bool
  message : String
  data : Option RespData := none
  suggestions : Option (List String) := none
  next_actions : Option (List String) := none
deriving DecidableEq

/-- The well-known response keys collected at orchestrator.py line 203. -/
def wellKnownKeys : List String := ["job_id", "candidate_id", "interview_id", "job_description"]

/-- dict[k] = v on an ordered association list (update in place or append). -/
def upsert (l : List (String × String)) (k v : String) : List (String × String) :=
  if l.any (fun p => p.1 == k) then l.map (fun p => if p.1 == k then (k, v) else p)
  else l ++ [(k, v)]

/-- The response_data collection loop (lines 202-205). -/
def collectData (results : List TaskResult) : List (String × String) :=
  results.foldl
    (fun acc r =>
      wellKnownKeys.foldl
        (fun a k =>
          match lookupStr r.data k with
          | some v => upsert a k v
          | none => a)
        acc)
    []

/-- OrchestratorAgent._generate_response (orchestrator.py lines 172-218).
list(set(...)) enumerates the distinct next actions in an unspecified
order; List.dedup models it as some duplicate-free enumeration. -/
def generate_response (results : List TaskResult) : AgentResponse :=
  let successful := results.filter (fun r => r.success)
  let failed := results.filter (fun r => !r.success)
  if successful.isEmpty then
    { success := false,
      message := "I encountered some issues processing your request:",
      data := some (RespData.errors (failed.map TaskResult.error)) }
  else
    let messages := successful.filterMap
      (fun r => if strTruthy r.message then r.message else none)
    let all_next_actions := successful.foldl (fun acc r => acc ++ r.next_actions) []
    let response_data := collectData successful
    let base :=
      if messages.isEmpty then "✅ Task completed successfully"
      else joinSep "\n" messages
    let response_message :=
      if 1 < successful.length then
        base ++ "\n\nCompleted " ++ toString successful.length ++ " tasks."
      else base
    { success := true,
      message := response_message,
      data := if response_data.isEmpty then none else some (RespData.fields response_data),
      next_actions :=
        if all_next_actions.isEmpty then none
        else some (all_next_actions.dedup.take 5) }

/-- One attempt of the Gemini call inside LLMService.generate_response:
normal text, a rate-limit (429) error, or another exception. -/
inductive Attempt where
  | ok (text : String)
  | rateLimited (msg : String)
  | failed (msg : String)
deriving DecidableEq

/-- Whether the attempt succeeds. -/
def Attempt.isOk : Attempt → Bool
  | .ok _ => true
  | _ => false

/-- The retry loop body of LLMService.generate_response (llm_service.py
lines 59-127) over the sequence of attempt outcomes it will observe: a
success returns immediately; any failure retries while attempts remain and
raises the terminal message on the last one; an empty range raise-s
"Max retries exceeded". -/
def llm_try : List Attempt → Except String String
  | [] => .error "Max retries exceeded"
  | [a] =>
    match a with
    | .ok t => .ok t
    | .rateLimited _ => .error "Rate limit exceeded. Your Gemini API quota is exhausted."
    | .failed m => .error ("Error generating response: " ++ m)
  | a :: b :: rest =>
    match a with
    | .ok t => .ok t
    | _ => llm_try (b :: rest)

/-- LLMService.generate_response with its max_retries bound (default 3). -/
def LLMService.generate_response (attempts : List Attempt) (max_retries : Nat) :
    Except String String :=
  llm_try (attempts.take max_retries)

/-- The intent-analysis dict fields process_request reads (llm_service.py
analyze_intent schema). -/
structure Intent where
  intent : String
  requires_clarification : Bool
  clarification_questions : List String

/-- A raised Python exception, carried to the caller. -/
structure PyErr where
  msg : String
deriving DecidableEq

/-- The ambient mutable state an orchestrator invocation touches. -/
structure World where
  conv : ConversationManager
  mem : MemoryState
  now : Nat

/-- Observational trace of one process_request invocation: how many times
each reasoning-service entry point was called, and which tasks had their
capability handler invoked. -/
structure ProcTrace where
  intentCalls : Nat
  decomposeCalls : Nat
  dispatched : List String
deriving DecidableEq

/-- Result of one process_request invocation. -/
structure ProcOutcome where
  result : Except PyErr AgentResponse
  world : World
  trace : ProcTrace

/-- OrchestratorAgent._summarize_conversation (lines 220-234). -/
def summarize_conversation (messages : List ConversationMessage) : String :=
  if messages.isEmpty then "New conversation"
  else joinSep " | " ((pySliceLast messages 3).map
    (fun m => (if m.role == "user" then "User" else "Assistant") ++ ": " ++
      m.content.take 100))

/-- OrchestratorAgent.process_request (orchestrator.py lines 26-119).
The two reasoning-service calls (analyze_intent and the decomposer's
structured call) are modeled by their outcomes: a parsed value or the
terminal exception the service raises once its own retries are exhausted or
its output is unparseable.  The orchestrator invokes each at most once; the
trace counts those invocations.  Dict access execution_plan['tasks'] on the
invalid_sequence dict (which has no such key) raises KeyError. -/
def process_request (agents : TaskType → Option Handler)
    (intentCall : Except PyErr Intent) (decomposeCall : Except PyErr Decomposition)
    (w : World) (session_id user_message : String) (context : Context) :
    ProcOutcome :=
  let conv1 := add_message w.conv session_id "user" user_message none w.now
  let history := get_messages conv1 session_id (some 5)
  let relevant := get_relevant_context w.mem session_id user_message w.now
  let memCtx := relevant.1
  let mem1 := relevant.2
  let full_context : Context := fun k =>
    if k = "conversation_summary" then
      some (CtxVal.str (summarize_conversation history))
    else
      match memCtx k with
      | some v => some v
      | none => context k
  match intentCall with
  | .error e => ⟨.error e, ⟨conv1, mem1, w.now⟩, ⟨1, 0, []⟩⟩
  | .ok intent =>
    if intent.requires_clarification then
      let resp : AgentResponse :=
        { success := true, message := "I need some clarification to help you better:",
          suggestions := some intent.clarification_questions }
      let conv2 := add_message conv1 session_id "assistant" resp.message none w.now
      ⟨.ok resp, ⟨conv2, mem1, w.now⟩, ⟨1, 0, []⟩⟩
    else
      match decomposeCall with
      | .error e => ⟨.error e, ⟨conv1, mem1, w.now⟩, ⟨1, 1, []⟩⟩
      | .ok d =>
        match generate_execution_plan d with
        | .needsClarification qs =>
          let resp : AgentResponse :=
            { success := true, message := "I need more information:",
              suggestions := some qs }
          let conv2 := add_message conv1 session_id "assistant" resp.message none w.now
          ⟨.ok resp, ⟨conv2, mem1, w.now⟩, ⟨1, 1, []⟩⟩
        | .invalidSequence _ =>
          ⟨.error ⟨"KeyError: tasks"⟩, ⟨conv1, mem1, w.now⟩, ⟨1, 1, []⟩⟩
        | .ready _ tasks _ =>
          let s := execute_tasks agents tasks full_context
          let final := generate_response s.results
          let mem2 := store_short_term mem1 session_id "last_action"
            (CtxVal.snapshot intent.intent s.results) w.now 60
          let conv2 := add_message conv1 session_id "assistant" final.message none w.now
          ⟨.ok final, ⟨conv2, mem2, w.now⟩, ⟨1, 1, s.trace.map Prod.fst⟩⟩

/-! Concrete instances used to exercise the embedding. -/

/-- A handler that always returns an empty success dict. -/
def dummyHandler : Handler := fun _ => .ok {}

/-- A handler that always raises. -/
def raisingHandler : Handler := fun _ => .error "boom"

/-- The orchestrator registry over trivial agent behaviours. -/
def exAgents : TaskType → Option Handler :=
  orchestrator_agents dummyHandler dummyHandler dummyHandler

/-- A concrete analytics plan task. -/
def exTaskA : PlanTask := ⟨"task_1", .analytics, "metrics", 1⟩

/-- Registry whose job_description handler raises. -/
def exAgentsRaise : TaskType → Option Handler :=
  orchestrator_agents raisingHandler dummyHandler dummyHandler

/-- First task of the raising-handler scenario. -/
def exTaskR1 : PlanTask := ⟨"task_1", .job_description, "draft jd", 1⟩

/-- Second task of the raising-handler scenario. -/
def exTaskR2 : PlanTask := ⟨"task_2", .job_description, "refine jd", 2⟩

/-- An empty conversation manager with the pathological cap 0. -/
def convM0 : ConversationManager := ⟨fun _ => none, 0⟩

/-- An empty conversation manager with the default cap 20. -/
def convM20 : ConversationManager := ⟨fun _ => none, 20⟩

/-- The session state expected after one append to convM20. -/
def convSt1 : ConversationState :=
  ⟨"s", [⟨"user", "hi", 0, some []⟩], [], [], 0, 0⟩

/-- An empty memory state. -/
def memEmpty : MemoryState := ⟨fun _ => none, fun _ => none, fun _ => none⟩

/-- A memory state holding one entry for session "s" that expires at 5. -/
def memOne : MemoryState :=
  { memEmpty with short_term := fun q =>
      if q = "s" then some [⟨"k", CtxVal.str "v", 0, 5⟩] else none }

/-- An empty world. -/
def exWorld : World := ⟨convM20, memEmpty, 0⟩

/-- A non-clarifying intent. -/
def exIntent : Intent := ⟨"job_description", false, []⟩

/-- A decomposition whose single task references a nonexistent task id. -/
def exDecompBad : Decomposition :=
  ⟨[⟨"task_1", .job_description, "draft", ["task_99"], [], 1⟩], false, []⟩

/-- An innocuous decomposition outcome. -/
def exDecompOk : Except PyErr Decomposition := .ok ⟨[], false, []⟩

/-- Unknown-type failure entry of the five-result scenario. -/
def exF1 : TaskResult :=
  { task_id := "task_1",
    error := some ("No agent found for task type: " ++ TaskType.analytics.pyStr) }

/-- Handler-exception failure entry of the five-result scenario. -/
def exF2 : TaskResult := { task_id := "task_2", error := some "boom" }

/-- First success of the five-result scenario. -/
def exS1 : TaskResult :=
  { task_id := "task_3", task_type := some "job_description", success := true,
    message := some "A", next_actions := ["post job", "review"] }

/-- Second success of the five-result scenario. -/
def exS2 : TaskResult :=
  { task_id := "task_4", task_type := some "resume_screening", success := true,
    message := some "B", next_actions := ["review", "schedule"] }

/-- Third success of the five-result scenario. -/
def exS3 : TaskResult :=
  { task_id := "task_5", task_type := some "interview_scheduling", success := true,
    message := some "C", next_actions := ["schedule"] }

/-- Five results: two failures (unknown type, handler exception), three
successes, as in the spec's scenario. -/
def exResults5 : List TaskResult := [exF1, exF2, exS1, exS2, exS3]

/-- Two tasks with priorities 3 and 1, in that input order. -/
def exTasks31 : List AgentTask :=
  [⟨"task_1", .analytics, "report", [], [], 3⟩,
   ⟨"task_2", .job_description, "draft", [], [], 1⟩]

/-- The message list a session holds before an operation ([] if absent). -/
def oldMessages (M : ConversationManager) (sid : String) : List ConversationMessage :=
  match M.sessions sid with
  | some st => st.messages
  | none => []

/-! Helper lemmas about the dispatch loop. -/

/-- Unfolding equation: dispatch of a task with no registered handler. -/
theorem execute_tasks_cons_noagent (agents : TaskType → Option Handler)
    (t : PlanTask) (rest : List PlanTask) (ctx : Context)
    (hA : agents t.type = none) :
    execute_tasks agents (t :: rest) ctx =
      ⟨noAgentResult t :: (execute_tasks agents rest ctx).results,
       (execute_tasks agents rest ctx).ctx,
       (execute_tasks agents rest ctx).trace⟩ := by
  rw [execute_tasks, hA]

/-- Unfolding equation: dispatch of a task whose handler returns normally. -/
theorem execute_tasks_cons_ok (agents : TaskType → Option Handler)
    (t : PlanTask) (rest : List PlanTask) (ctx : Context) (h : Handler)
    (r : HandlerResult) (hA : agents t.type = some h)
    (hH : h (taskData ctx) = Except.ok r) :
    execute_tasks agents (t :: rest) ctx =
      ⟨okTaskResult t r ::
        (execute_tasks agents rest (ctxInsert ctx (resultKey t.task_id) (CtxVal.result r))).results,
       (execute_tasks agents rest (ctxInsert ctx (resultKey t.task_id) (CtxVal.result r))).ctx,
       (t.task_id, taskData ctx) ::
        (execute_tasks agents rest (ctxInsert ctx (resultKey t.task_id) (CtxVal.result r))).trace⟩ := by
  rw [execute_tasks, hA]
  show (match h (taskData ctx) with
    | Except.ok r =>
      DispatchState.mk (okTaskResult t r ::
        (execute_tasks agents rest (ctxInsert ctx (resultKey t.task_id) (CtxVal.result r))).results)
        (execute_tasks agents rest (ctxInsert ctx (resultKey t.task_id) (CtxVal.result r))).ctx
        ((t.task_id, taskData ctx) ::
          (execute_tasks agents rest (ctxInsert ctx (resultKey t.task_id) (CtxVal.result r))).trace)
    | Except.error e =>
      DispatchState.mk (raisedResult t e :: (execute_tasks agents rest ctx).results)
        (execute_tasks agents rest ctx).ctx
        ((t.task_id, taskData ctx) :: (execute_tasks agents rest ctx).trace)) = _
  rw [hH]

/-- Unfolding equation: dispatch of a task whose handler raises. -/
theorem execute_tasks_cons_raise (agents : TaskType → Option Handler)
    (t : PlanTask) (rest : List PlanTask) (ctx : Context) (h : Handler)
    (e : String) (hA : agents t.type = some h)
    (hH : h (taskData ctx) = Except.error e) :
    execute_tasks agents (t :: rest) ctx =
      ⟨raisedResult t e :: (execute_tasks agents rest ctx).results,
       (execute_tasks agents rest ctx).ctx,
       (t.task_id, taskData ctx) :: (execute_tasks agents rest ctx).trace⟩ := by
  rw [execute_tasks, hA]
  show (match h (taskData ctx) with
    | Except.ok r =>
      DispatchState.mk (okTaskResult t r ::
        (execute_tasks agents rest (ctxInsert ctx (resultKey t.task_id) (CtxVal.result r))).results)
        (execute_tasks agents rest (ctxInsert ctx (resultKey t.task_id) (CtxVal.result r))).ctx
        ((t.task_id, taskData ctx) ::
          (execute_tasks agents rest (ctxInsert ctx (resultKey t.task_id) (CtxVal.result r))).trace)
    | Except.error e =>
      DispatchState.mk (raisedResult t e :: (execute_tasks agents rest ctx).results)
        (execute_tasks agents rest ctx).ctx
        ((t.task_id, taskData ctx) :: (execute_tasks agents rest ctx).trace)) = _
  rw [hH]

/-- The dispatcher emits exactly one result per planned task, in plan order. -/
theorem execute_tasks_ids (agents : TaskType → Option Handler) :
    ∀ (ts : List PlanTask) (ctx : Context),
      (execute_tasks agents ts ctx).results.map TaskResult.task_id =
        ts.map PlanTask.task_id := by
  intro ts
  induction ts with
  | nil => intro ctx; rfl
  | cons t rest ih =>
    intro ctx
    cases hA : agents t.type with
    | none => rw [execute_tasks_cons_noagent agents t rest ctx hA]; simp [noAgentResult, ih]
    | some h =>
      cases hH : h (taskData ctx) with
      | ok r => rw [execute_tasks_cons_ok agents t rest ctx h r hA hH]; simp [okTaskResult, ih]
      | error e => rw [execute_tasks_cons_raise agents t rest ctx h e hA hH]; simp [raisedResult, ih]

/-- The dispatch loop never touches context keys outside its own tasks'
result keys. -/
theorem execute_ctx_frame (agents : TaskType → Option Handler) :
    ∀ (ts : List PlanTask) (ctx : Context) (k : String),
      k ∉ ts.map (fun u => resultKey u.task_id) →
      (execute_tasks agents ts ctx).ctx k = ctx k := by
  intro ts
  induction ts with
  | nil => intro ctx k _; rfl
  | cons t rest ih =>
    intro ctx k hk
    rw [List.map_cons, List.mem_cons, not_or] at hk
    obtain ⟨hk1, hk2⟩ := hk
    cases hA : agents t.type with
    | none => rw [execute_tasks_cons_noagent agents t rest ctx hA]; exact ih ctx k hk2
    | some h =>
      cases hH : h (taskData ctx) with
      | ok r =>
        rw [execute_tasks_cons_ok agents t rest ctx h r hA hH]
        show (execute_tasks agents rest _).ctx k = ctx k
        rw [ih _ k hk2]
        simp [ctxInsert, hk1]
      | error e =>
        rw [execute_tasks_cons_raise agents t rest ctx h e hA hH]
        exact ih ctx k hk2

/-- After running a prefix whose result keys are distinct, the shared
context binds each normally-returned task's key to its handler result. -/
theorem execute_ctx_stored (agents : TaskType → Option Handler) :
    ∀ (pre : List PlanTask) (ctx : Context),
      (pre.map (fun u => resultKey u.task_id)).Nodup →
      ∀ (i : Nat) (u : PlanTask) (r : TaskResult),
        pre.get? i = some u →
        (execute_tasks agents pre ctx).results.get? i = some r →
        r.task_type.isSome = true →
        (execute_tasks agents pre ctx).ctx (resultKey u.task_id) =
          some (CtxVal.result (toHandlerResult r)) := by
  intro pre
  induction pre with
  | nil => intro ctx _ i u r hu; simp at hu
  | cons t rest ih =>
    intro ctx hnd i u r hu hr hok
    rw [List.map_cons, List.nodup_cons] at hnd
    obtain ⟨hhead, htail⟩ := hnd
    cases hA : agents t.type with
    | none =>
      rw [execute_tasks_cons_noagent agents t rest ctx hA] at hr ⊢
      cases i with
      | zero =>
        simp only [List.get?] at hu hr
        obtain rfl : noAgentResult t = r := by injection hr
        simp [noAgentResult] at hok
      | succ n =>
        simp only [List.get?] at hu hr
        exact ih ctx htail n u r hu hr hok
    | some h =>
      cases hH : h (taskData ctx) with
      | ok rr =>
        rw [execute_tasks_cons_ok agents t rest ctx h rr hA hH] at hr ⊢
        cases i with
        | zero =>
          simp only [List.get?] at hu hr
          obtain rfl : t = u := by injection hu
          obtain rfl : okTaskResult t rr = r := by injection hr
          show (execute_tasks agents rest _).ctx (resultKey t.task_id) = _
          rw [execute_ctx_frame agents rest _ _ hhead]
          simp [ctxInsert, okTaskResult, toHandlerResult]
        | succ n =>
          simp only [List.get?] at hu hr
          exact ih _ htail n u r hu hr hok
      | error e =>
        rw [execute_tasks_cons_raise agents t rest ctx h e hA hH] at hr ⊢
        cases i with
        | zero =>
          simp only [List.get?] at hu hr
          obtain rfl : raisedResult t e = r := by injection hr
          simp [raisedResult] at hok
        | succ n =>
          simp only [List.get?] at hu hr
          exact ih ctx htail n u r hu hr hok

/-- The dispatch trace of a concatenated plan splits at the intermediate
context. -/
theorem execute_trace_append (agents : TaskType → Option Handler) :
    ∀ (pre post : List PlanTask) (ctx : Context),
      (execute_tasks agents (pre ++ post) ctx).trace =
        (execute_tasks agents pre ctx).trace ++
          (execute_tasks agents post (execute_tasks agents pre ctx).ctx).trace := by
  intro pre
  induction pre with
  | nil => intro post ctx; rfl
  | cons t rest ih =>
    intro post ctx
    rw [List.cons_append]
    cases hA : agents t.type with
    | none =>
      rw [execute_tasks_cons_noagent agents t (rest ++ post) ctx hA,
        execute_tasks_cons_noagent agents t rest ctx hA]
      exact ih post ctx
    | some h =>
      cases hH : h (taskData ctx) with
      | ok r =>
        rw [execute_tasks_cons_ok agents t (rest ++ post) ctx h r hA hH,
          execute_tasks_cons_ok agents t rest ctx h r hA hH]
        simp [ih post]
      | error e =>
        rw [execute_tasks_cons_raise agents t (rest ++ post) ctx h e hA hH,
          execute_tasks_cons_raise agents t rest ctx h e hA hH]
        simp [ih post]

/-! Helper lemmas about the priority sort. -/

/-- Membership through the insertion step. -/
theorem mem_insertByPriority {a b : AgentTask} :
    ∀ {l : List AgentTask}, b ∈ insertByPriority a l ↔ b = a ∨ b ∈ l := by
  intro l
  induction l with
  | nil => simp [insertByPriority]
  | cons c t ih =>
    by_cases h : a.priority ≤ c.priority
    · rw [insertByPriority, if_pos h]
      simp [List.mem_cons]
    · rw [insertByPriority, if_neg h]
      simp only [List.mem_cons, ih]
      tauto

/-- The insertion step preserves ascending order by priority. -/
theorem sorted_insertByPriority {a : AgentTask} :
    ∀ {l : List AgentTask},
      l.Pairwise (fun s t => s.priority ≤ t.priority) →
      (insertByPriority a l).Pairwise (fun s t => s.priority ≤ t.priority) := by
  intro l
  induction l with
  | nil => intro _; simp [insertByPriority]
  | cons b t ih =>
    intro hl
    obtain ⟨hb, ht⟩ := List.pairwise_cons.mp hl
    by_cases h : a.priority ≤ b.priority
    · rw [insertByPriority, if_pos h]
      refine List.pairwise_cons.mpr ⟨?_, hl⟩
      intro c hc
      rcases List.mem_cons.mp hc with rfl | hct
      · exact h
      · exact le_trans h (hb c hct)
    · rw [insertByPriority, if_neg h]
      refine List.pairwise_cons.mpr ⟨?_, ih ht⟩
      intro c hc
      rcases mem_insertByPriority.mp hc with rfl | hct
      · omega
      · exact hb c hct

/-- The embedded sort is ascending by priority. -/
theorem sorted_prioritize (l : List AgentTask) :
    (prioritize_tasks l).Pairwise (fun s t => s.priority ≤ t.priority) := by
  induction l with
  | nil => simp [prioritize_tasks]
  | cons a t ih => exact sorted_insertByPriority ih

/-- Filtering one priority class through the insertion step. -/
theorem filter_insertByPriority (p : Nat) (a : AgentTask) :
    ∀ (l : List AgentTask),
      (insertByPriority a l).filter (fun t => t.priority == p) =
        if a.priority = p then a :: l.filter (fun t => t.priority == p)
        else l.filter (fun t => t.priority == p) := by
  intro l
  induction l with
  | nil =>
    by_cases hp : a.priority = p
    · simp [insertByPriority, List.filter, hp]
    · have h2 : (a.priority == p) = false := beq_eq_false_iff_ne.mpr hp
      simp [insertByPriority, List.filter, hp, h2]
  | cons c t ih =>
    by_cases h : a.priority ≤ c.priority
    · rw [insertByPriority, if_pos h]
      by_cases hp : a.priority = p <;> simp [List.filter_cons, hp]
    · rw [insertByPriority, if_neg h]
      rw [List.filter_cons, List.filter_cons, ih]
      by_cases hp : a.priority = p
      · have hcp : (c.priority == p) = false := by
          refine beq_eq_false_iff_ne.mpr ?_
          omega
        simp [hp, hcp]
      · simp [hp]

/-- Stability of the embedded sort: each priority class keeps its original
emission order. -/
theorem filter_prioritize (p : Nat) :
    ∀ (l : List AgentTask),
      (prioritize_tasks l).filter (fun t => t.priority == p) =
        l.filter (fun t => t.priority == p) := by
  intro l
  induction l with
  | nil => rfl
  | cons a t ih =>
    rw [prioritize_tasks, filter_insertByPriority, List.filter_cons, ih]
    by_cases hp : a.priority = p
    · simp [hp]
    · have : (a.priority == p) = false := beq_eq_false_iff_ne.mpr hp
      simp [hp, this]

/-! Helper lemmas about reversed search and filtered lists. -/

/-- getLast? through a cons, in Option.or form. -/
theorem getLast?_cons_or {α : Type} (a : α) :
    ∀ (xs : List α), (a :: xs).getLast? = xs.getLast?.or (some a) := by
  intro xs
  induction xs generalizing a with
  | nil => rfl
  | cons x t ih =>
    rw [List.getLast?_cons_cons, ih x, Option.or_assoc]
    rfl

/-- Searching a reversed list is taking the last filtered element. -/
theorem reverse_find?_eq_getLast?_filter {α : Type} (p : α → Bool) :
    ∀ (l : List α), l.reverse.find? p = (l.filter p).getLast? := by
  intro l
  induction l with
  | nil => rfl
  | cons a t ih =>
    rw [List.reverse_cons, List.find?_append, ih, List.filter_cons]
    cases hpa : p a
    · simp [List.find?, hpa]
    · simp [List.find?, hpa, getLast?_cons_or]

/-- A dependency referencing no task id falsifies validate_task_sequence. -/
theorem validate_eq_false {tasks : List AgentTask}
    (h : ∃ t ∈ tasks, ∃ dep ∈ t.dependencies, dep ∉ tasks.map AgentTask.task_id) :
    validate_task_sequence tasks = false := by
  obtain ⟨t, ht, dep, hdep, hnm⟩ := h
  refine Bool.eq_false_iff.mpr ?_
  intro hv
  rw [validate_task_sequence, List.all_eq_true] at hv
  have h1 := hv t ht
  rw [List.all_eq_true] at h1
  have h2 := h1 dep hdep
  exact hnm (by simpa using h2)

/-! Claim theorems. -/

/-- C4: dispatch produces exactly one TaskResult per planned task, and the
result list preserves the plan's task order (position by position, the
result carries the planned task's id), for every plan, registry and shared
context — hence also when tasks fail with a missing handler or a raising
handler; no failure aborts the batch. -/
theorem hrC4 (agents : TaskType → Option Handler) (tasks : List PlanTask)
    (ctx : Context) :
    (execute_tasks agents tasks ctx).results.length = tasks.length ∧
    (execute_tasks agents tasks ctx).results.map TaskResult.task_id =
      tasks.map PlanTask.task_id := by
  refine ⟨?_, execute_tasks_ids agents tasks ctx⟩
  have h := congrArg List.length (execute_tasks_ids agents tasks ctx)
  simpa using h

/-- C3 counterexample: the registry built in OrchestratorAgent.__init__
has no entry for the analytics task type, and dispatching an analytics task
takes the no-handler failure branch — so not every one of the six task
types has a registered capability handler. -/
theorem hrC3_cex :
    exAgents TaskType.analytics = none ∧
    (execute_tasks exAgents [exTaskA] emptyCtx).results.map
        (fun r => (r.success, r.error)) =
      [(false, some "No agent found for task type: TaskType.ANALYTICS")] := by
  exact ⟨rfl, rfl⟩

/-- C3 (amended): the static registry maps exactly the three task types
job_description, resume_screening and interview_scheduling to one handler
each; the other three types (email_communication, analytics,
offer_generation) have no handler, and dispatching a task of an
unregistered type yields the no-handler failure result. -/
theorem hrC3 (jd sa ia : Handler) :
    (∀ t : TaskType, (orchestrator_agents jd sa ia t).isSome =
      (t == TaskType.job_description || t == TaskType.resume_screening ||
        t == TaskType.interview_scheduling)) ∧
    (∀ (pt : PlanTask) (ctx : Context), orchestrator_agents jd sa ia pt.type = none →
      (execute_tasks (orchestrator_agents jd sa ia) [pt] ctx).results =
        [noAgentResult pt]) := by
  constructor
  · intro t; cases t <;> rfl
  · intro pt ctx h
    rw [execute_tasks_cons_noagent _ pt [] ctx h]
    rfl

/-- C3 witness: the registry instantiated with trivial handlers, applied at
the analytics task. -/
theorem hrC3_w :
    exAgents exTaskA.type = none ∧
    (execute_tasks exAgents [exTaskA] emptyCtx).results = [noAgentResult exTaskA] :=
  ⟨rfl, (hrC3 dummyHandler dummyHandler dummyHandler).2 exTaskA emptyCtx rfl⟩

/-- C2: a terminal reasoning-service failure (its bounded retry loop
returns an error once every attempt has failed, and parse failures raise
the same way) makes process_request return that single failure to the
caller: exactly one intent-analysis call is made, no retry of it happens
inside the orchestrator, no decomposition follows an intent failure, and
no handler is dispatched; a decomposition failure likewise terminates the
request after exactly one decomposition call. -/
theorem hrC2 :
    (∀ attempts : List Attempt, (∀ a ∈ attempts, a.isOk = false) →
      ∃ e, llm_try attempts = Except.error e) ∧
    (∀ (agents : TaskType → Option Handler) (dc : Except PyErr Decomposition)
        (w : World) (sid msg : String) (ctx : Context) (e : PyErr),
      (process_request agents (Except.error e) dc w sid msg ctx).result =
        Except.error e ∧
      (process_request agents (Except.error e) dc w sid msg ctx).trace =
        ⟨1, 0, []⟩) ∧
    (∀ (agents : TaskType → Option Handler) (intent : Intent) (w : World)
        (sid msg : String) (ctx : Context) (e : PyErr),
      intent.requires_clarification = false →
      (process_request agents (Except.ok intent) (Except.error e) w sid msg ctx).result =
        Except.error e ∧
      (process_request agents (Except.ok intent) (Except.error e) w sid msg ctx).trace =
        ⟨1, 1, []⟩) := by
  refine ⟨?_, ?_, ?_⟩
  · intro attempts
    induction attempts with
    | nil => intro _; exact ⟨"Max retries exceeded", rfl⟩
    | cons a tail ih =>
      intro hall
      cases tail with
      | nil =>
        cases a with
        | ok t =>
          exact absurd (hall (Attempt.ok t) (List.mem_cons_self _ _))
            (by simp [Attempt.isOk])
        | rateLimited m =>
          exact ⟨"Rate limit exceeded. Your Gemini API quota is exhausted.", rfl⟩
        | failed m => exact ⟨"Error generating response: " ++ m, rfl⟩
      | cons b rest =>
        have htail : ∀ x ∈ b :: rest, x.isOk = false := by
          intro x hx; exact hall x (List.mem_cons_of_mem a hx)
        cases a with
        | ok t =>
          exact absurd (hall (Attempt.ok t) (List.mem_cons_self _ _))
            (by simp [Attempt.isOk])
        | rateLimited m => exact ih htail
        | failed m => exact ih htail
  · intro agents dc w sid msg ctx e
    exact ⟨rfl, rfl⟩
  · intro agents intent w sid msg ctx e hcl
    constructor <;> simp [process_request, hcl]

/-- C2 witness: a concrete exhausted-attempts run of the retry loop, and
concrete intent-stage and decomposition-stage terminal failures. -/
theorem hrC2_w :
    exIntent.requires_clarification = false ∧
    (process_request exAgents (Except.error ⟨"boom"⟩) exDecompOk exWorld
      "s" "m" emptyCtx).trace = ⟨1, 0, []⟩ ∧
    (process_request exAgents (Except.ok exIntent) (Except.error ⟨"parse"⟩) exWorld
      "s" "m" emptyCtx).trace = ⟨1, 1, []⟩ ∧
    llm_try [Attempt.failed "x"] = Except.error "Error generating response: x" :=
  ⟨rfl,
   (hrC2.2.1 exAgents exDecompOk exWorld "s" "m" emptyCtx ⟨"boom"⟩).2,
   (hrC2.2.2 exAgents exIntent exWorld "s" "m" emptyCtx ⟨"parse"⟩ rfl).2,
   rfl⟩

/-- C1 (code behaviour at the claimed scenario): when some task's
dependency list references an id outside the plan's id set, the decomposer
indeed returns the invalid_sequence outcome and no handler is ever invoked
— but process_request, which only tests for the needs_clarification status,
then evaluates execution_plan['tasks'] on a dict without that key and
raises KeyError instead of returning the user-facing failure response the
spec describes. -/
theorem hrC1 (agents : TaskType → Option Handler) (intent : Intent)
    (d : Decomposition) (w : World) (sid msg : String) (ctx : Context)
    (hint : intent.requires_clarification = false)
    (hd : d.requires_clarification = false)
    (hbad : ∃ t ∈ d.tasks, ∃ dep ∈ t.dependencies,
      dep ∉ d.tasks.map AgentTask.task_id) :
    generate_execution_plan d =
      PlanOutcome.invalidSequence "Task dependencies are invalid" ∧
    (process_request agents (Except.ok intent) (Except.ok d) w sid msg ctx).result =
      Except.error ⟨"KeyError: tasks"⟩ ∧
    (process_request agents (Except.ok intent) (Except.ok d) w sid msg ctx).trace.dispatched =
      [] := by
  have hplan : generate_execution_plan d =
      PlanOutcome.invalidSequence "Task dependencies are invalid" := by
    rw [generate_execution_plan]
    simp [hd, validate_eq_false hbad]
  refine ⟨hplan, ?_, ?_⟩ <;> simp [process_request, hint, hplan]

/-- C1 witness: a one-task decomposition depending on the nonexistent id
task_99. -/
theorem hrC1_w :
    exIntent.requires_clarification = false ∧
    exDecompBad.requires_clarification = false ∧
    (process_request exAgents (Except.ok exIntent) (Except.ok exDecompBad) exWorld
      "s" "m" emptyCtx).result = Except.error ⟨"KeyError: tasks"⟩ :=
  ⟨rfl, rfl,
   (hrC1 exAgents exIntent exDecompBad exWorld "s" "m" emptyCtx rfl rfl
     ⟨⟨"task_1", .job_description, "draft", ["task_99"], [], 1⟩, by decide,
      "task_99", by decide, by decide⟩).2.1⟩

/-- C5 counterexample: in a two-task plan whose first task's handler
raises, both tasks are dispatched (both appear in the trace, in order), yet
the input view passed to the second task's handler holds nothing under the
first task's deterministic result key — so the input does NOT contain the
result of every previously dispatched task. -/
theorem hrC5_cex :
    (execute_tasks exAgentsRaise [exTaskR1, exTaskR2] emptyCtx).trace.map Prod.fst =
      ["task_1", "task_2"] ∧
    ((execute_tasks exAgentsRaise [exTaskR1, exTaskR2] emptyCtx).trace.get? 1).map
      (fun pr => pr.2 (resultKey "task_1")) = some none := by
  exact ⟨rfl, rfl⟩

/-- C5 (amended): at the moment a task's handler is invoked, the input
view passed to it contains, under the key task_{id}_result, the result of
every previously dispatched task whose handler returned normally (provided
the prefix's result keys are distinct); a previously dispatched task whose
handler raised leaves no entry in the shared context. -/
theorem hrC5 (agents : TaskType → Option Handler) (pre : List PlanTask)
    (t : PlanTask) (post : List PlanTask) (ctx : Context)
    (hkeys : (pre.map (fun u => resultKey u.task_id)).Nodup)
    (ht : (agents t.type).isSome = true) :
    ((t.task_id, taskData (execute_tasks agents pre ctx).ctx) ∈
      (execute_tasks agents (pre ++ t :: post) ctx).trace) ∧
    (∀ (i : Nat) (u : PlanTask) (r : TaskResult),
      pre.get? i = some u →
      (execute_tasks agents pre ctx).results.get? i = some r →
      r.task_type.isSome = true →
      taskData (execute_tasks agents pre ctx).ctx (resultKey u.task_id) =
        some (CtxVal.result (toHandlerResult r))) := by
  constructor
  · rw [execute_trace_append agents pre (t :: post) ctx]
    refine List.mem_append_right _ ?_
    obtain ⟨h, hh⟩ := Option.isSome_iff_exists.mp ht
    cases hH : h (taskData (execute_tasks agents pre ctx).ctx) with
    | ok r =>
      rw [execute_tasks_cons_ok agents t post _ h r hh hH]
      exact List.mem_cons_self _ _
    | error e =>
      rw [execute_tasks_cons_raise agents t post _ h e hh hH]
      exact List.mem_cons_self _ _
  · intro i u r hu hr hok
    have hstored := execute_ctx_stored agents pre ctx hkeys i u r hu hr hok
    rw [taskData, hstored]

/-- C5 witness: a two-task plan whose first handler returns normally. -/
theorem hrC5_w :
    ((exAgents TaskType.job_description).isSome = true) ∧
    (([exTaskR1].map (fun u => resultKey u.task_id)).Nodup) ∧
    taskData (execute_tasks exAgents [exTaskR1] emptyCtx).ctx (resultKey "task_1") =
      some (CtxVal.result (toHandlerResult (okTaskResult exTaskR1 {}))) :=
  ⟨rfl, by simp,
   (hrC5 exAgents [exTaskR1] exTaskR2 [] emptyCtx (by simp) rfl).2 0 exTaskR1
     (okTaskResult exTaskR1 {}) rfl rfl rfl⟩

/-- C8: the execution plan's ordering is a stable ascending sort by
priority — the sorted list is pairwise ascending, every priority class
keeps its original emission order, any priority-1 task precedes any
priority-3 task, a valid non-clarifying decomposition yields exactly the
prioritized tasks as its plan, and dispatch walks that plan in exactly its
order. -/
theorem hrC8 (l : List AgentTask) :
    ((prioritize_tasks l).Pairwise (fun s t => s.priority ≤ t.priority)) ∧
    (∀ p : Nat, (prioritize_tasks l).filter (fun t => t.priority == p) =
      l.filter (fun t => t.priority == p)) ∧
    (∀ (i j : Nat) (a b : AgentTask),
      (prioritize_tasks l).get? i = some a → (prioritize_tasks l).get? j = some b →
      a.priority = 1 → b.priority = 3 → i < j) ∧
    (∀ d : Decomposition, d.tasks = l → d.requires_clarification = false →
      validate_task_sequence l = true →
      generate_execution_plan d = PlanOutcome.ready (prioritize_tasks l).length
        ((prioritize_tasks l).map AgentTask.toPlanTask)
        (estimate_time (prioritize_tasks l))) ∧
    (∀ (agents : TaskType → Option Handler) (ctx : Context),
      (execute_tasks agents ((prioritize_tasks l).map AgentTask.toPlanTask) ctx).results.map
          TaskResult.task_id =
        ((prioritize_tasks l).map AgentTask.toPlanTask).map PlanTask.task_id) := by
  refine ⟨sorted_prioritize l, fun p => filter_prioritize p l, ?_, ?_, ?_⟩
  · intro i j a b ha hb hpa hpb
    obtain ⟨hi, hgi⟩ := List.get?_eq_some.mp ha
    obtain ⟨hj, hgj⟩ := List.get?_eq_some.mp hb
    rcases lt_trichotomy i j with h | h | h
    · exact h
    · subst h
      rw [hgi] at hgj
      subst hgj
      omega
    · have := (List.pairwise_iff_get.mp (sorted_prioritize l)) ⟨j, hj⟩ ⟨i, hi⟩ h
      rw [hgi, hgj] at this
      omega
  · intro d hdl hdc hval
    subst hdl
    rw [generate_execution_plan]
    simp [hdc, hval]
  · intro agents ctx
    exact execute_tasks_ids agents _ ctx

/-- C8 witness: the two-task input with priorities 3 then 1. -/
theorem hrC8_w :
    ((prioritize_tasks exTasks31).map AgentTask.task_id = ["task_2", "task_1"]) ∧
    (0 : Nat) < 1 :=
  ⟨by decide,
   (hrC8 exTasks31).2.2.1 0 1 ⟨"task_2", .job_description, "draft", [], [], 1⟩
     ⟨"task_1", .analytics, "report", [], [], 3⟩ (by decide) (by decide) rfl rfl⟩

/-- Filtering twice with the same predicate filters once. -/
theorem filter_self_idem {α : Type} (p : α → Bool) (l : List α) :
    (l.filter p).filter p = l.filter p := by
  rw [List.filter_filter]
  congr 1
  funext a
  exact Bool.and_self (p a)

/-- C6 counterexample: with the configured maximum 0, the first append
leaves one message in the ledger — the cap is exceeded and nothing is
evicted, because the Python truncation slice messages[-0:] is the whole
list. -/
theorem hrC6_cex :
    convM0.max_history = 0 ∧
    ((add_message convM0 "s" "user" "hi" none 0).sessions "s").map
      (fun st => st.messages.length) = some 1 := by
  exact ⟨rfl, rfl⟩

/-- C6 (amended): for every POSITIVE configured maximum N, after any
append the session exists, its message list has length
min (previous length + 1, N) — in particular never exceeds N — and is a
suffix of the previous messages followed by the new one (the oldest
messages are the evicted ones).  For N = 0 the Python slice messages[-0:]
does not truncate, so the cap is not enforced there. -/
theorem hrC6 (M : ConversationManager) (sid role content : String)
    (md : Option (List (String × CtxVal))) (now : Nat)
    (hN : 0 < M.max_history) :
    ((add_message M sid role content md now).sessions sid).isSome = true ∧
    ∀ st, (add_message M sid role content md now).sessions sid = some st →
      st.messages.length ≤ M.max_history ∧
      st.messages.length = min ((oldMessages M sid).length + 1) M.max_history ∧
      st.messages.IsSuffix
        (oldMessages M sid ++ [⟨role, content, now, some (md.getD [])⟩]) := by
  have hold : ((M.sessions sid).getD (ConversationState.init sid now)).messages =
      oldMessages M sid := by
    cases hM : M.sessions sid <;> simp [oldMessages, hM, ConversationState.init]
  constructor
  · simp [add_message]
  · intro st hst
    simp only [add_message] at hst
    rw [if_pos trivial] at hst
    obtain rfl := Option.some.inj hst
    dsimp only
    rw [hold]
    have hlen1 : (oldMessages M sid ++
        [(⟨role, content, now, some (md.getD [])⟩ : ConversationMessage)]).length =
        (oldMessages M sid).length + 1 := by
      simp
    by_cases hover : M.max_history <
        (oldMessages M sid ++
          [(⟨role, content, now, some (md.getD [])⟩ : ConversationMessage)]).length
    · rw [if_pos hover]
      rw [pySliceLast, if_neg (by omega)]
      rw [hlen1] at hover
      refine ⟨?_, ?_, ?_⟩
      · rw [List.length_drop]; omega
      · rw [List.length_drop, hlen1]; omega
      · exact List.drop_suffix _ _
    · rw [if_neg hover]
      rw [hlen1] at hover
      refine ⟨?_, ?_, ?_⟩
      · rw [hlen1]; omega
      · rw [hlen1]; omega
      · exact List.suffix_refl _

/-- C6 witness: one append into an empty manager with the default cap 20. -/
theorem hrC6_w :
    0 < convM20.max_history ∧
    (add_message convM20 "s" "user" "hi" none 0).sessions "s" = some convSt1 ∧
    convSt1.messages.length ≤ convM20.max_history :=
  ⟨by decide, rfl,
   ((hrC6 convM20 "s" "user" "hi" none 0 (by decide)).2 convSt1 rfl).1⟩

/-- C7: a short-term entry whose TTL has elapsed (expires_at ≤ now) is
absent from any later read — a keyed get returns none once every entry
with that key has expired, the full listing only surfaces unexpired
entries — and both a read and a write leave the session holding no expired
entry (the lazy sweep; no background process exists in the model, state
changes only inside these operations). -/
theorem hrC7 (st : MemoryState) (sid key : String) (now : Nat)
    (entries : List MemEntry) (hs : st.short_term sid = some entries)
    (hexp : ∀ e ∈ entries, e.key = key → e.expires_at ≤ now) :
    (get_short_term_key st sid key now).1 = none ∧
    (∀ p ∈ (get_short_term_all st sid now).1,
      ∃ e ∈ entries, now < e.expires_at ∧ p = (e.key, e.value)) ∧
    (∀ e ∈ ((get_short_term_key st sid key now).2.short_term sid).getD [],
      now < e.expires_at) ∧
    (∀ (v : CtxVal) (ttl : Nat) (e : MemEntry),
      e ∈ ((store_short_term st sid key v now ttl).short_term sid).getD [] →
      now < e.expires_at) := by
  refine ⟨?_, ?_, ?_, ?_⟩
  · simp only [get_short_term_key, hs]
    have hnone : (cleanup_expired entries now).reverse.find?
        (fun e => e.key == key) = none := by
      rw [List.find?_eq_none]
      intro x hx hpx
      rw [List.mem_reverse, cleanup_expired, List.mem_filter] at hx
      obtain ⟨hxe, hdec⟩ := hx
      have hk : x.key = key := by simpa using hpx
      have h1 := hexp x hxe hk
      have h2 : now < x.expires_at := of_decide_eq_true hdec
      omega
    rw [hnone]
    rfl
  · intro p hp
    simp only [get_short_term_all, hs] at hp
    rw [List.mem_map] at hp
    obtain ⟨e, he, rfl⟩ := hp
    rw [cleanup_expired, List.mem_filter] at he
    exact ⟨e, he.1, of_decide_eq_true he.2, rfl⟩
  · intro e he
    simp only [get_short_term_key, hs, MemoryState.setShort] at he
    rw [if_pos trivial] at he
    simp only [Option.getD_some] at he
    rw [cleanup_expired, List.mem_filter] at he
    exact of_decide_eq_true he.2
  · intro v ttl e he
    simp only [store_short_term, hs, MemoryState.setShort] at he
    rw [if_pos trivial] at he
    simp only [Option.getD_some] at he
    rw [cleanup_expired, List.mem_filter] at he
    exact of_decide_eq_true he.2

/-- C7 witness: one entry for session s, key k, expiring at 5, read and
written at time 5 (its TTL has elapsed). -/
theorem hrC7_w :
    memOne.short_term "s" = some [⟨"k", CtxVal.str "v", 0, 5⟩] ∧
    (∀ e ∈ [(⟨"k", CtxVal.str "v", 0, 5⟩ : MemEntry)], e.key = "k" → e.expires_at ≤ 5) ∧
    (get_short_term_key memOne "s" "k" 5).1 = none :=
  ⟨rfl, by intro e he _; simp at he; subst he; decide,
   (hrC7 memOne "s" "k" 5 [⟨"k", CtxVal.str "v", 0, 5⟩] rfl
     (by intro e he _; simp at he; subst he; decide)).1⟩

/-- The lazy sweep is idempotent. -/
theorem cleanup_idem (l : List MemEntry) (now : Nat) :
    cleanup_expired (cleanup_expired l now) now = cleanup_expired l now := by
  unfold cleanup_expired
  exact filter_self_idem _ _

/-- The lazy sweep distributes over append. -/
theorem cleanup_append (l1 l2 : List MemEntry) (now : Nat) :
    cleanup_expired (l1 ++ l2) now =
      cleanup_expired l1 now ++ cleanup_expired l2 now := by
  unfold cleanup_expired
  exact List.filter_append _ _

/-- Characterization of the session list after store_short_term. -/
theorem store_short_term_self (st : MemoryState) (sid key : String) (v : CtxVal)
    (now ttl : Nat) :
    (store_short_term st sid key v now ttl).short_term sid =
      some (cleanup_expired ((st.short_term sid).getD [] ++ [⟨key, v, now, now + ttl⟩]) now) := by
  simp [store_short_term, MemoryState.setShort]

/-- Characterization of a keyed get on a present session. -/
theorem get_short_term_key_some (st : MemoryState) (sid key : String) (now : Nat)
    (entries : List MemEntry) (hs : st.short_term sid = some entries) :
    (get_short_term_key st sid key now).1 =
      ((cleanup_expired entries now).reverse.find?
        (fun e => e.key == key)).map MemEntry.value := by
  simp only [get_short_term_key, hs]

/-- C10: a keyed short-term read returns the value of the most recently
stored unexpired entry with that key — the last element of the
append-ordered entry list that both matches the key and is unexpired —
returns none when no such entry exists, and a later store for the same key
shadows an earlier one. -/
theorem hrC10 (st : MemoryState) (sid key : String) (now : Nat)
    (entries : List MemEntry) (hs : st.short_term sid = some entries) :
    (entries.filter (fun e => (e.key == key) && decide (now < e.expires_at)) = [] →
      (get_short_term_key st sid key now).1 = none) ∧
    (∀ (l : List MemEntry) (e : MemEntry),
      entries.filter (fun e => (e.key == key) && decide (now < e.expires_at)) =
        l ++ [e] →
      (get_short_term_key st sid key now).1 = some e.value) ∧
    (∀ (v1 v2 : CtxVal) (ttl1 ttl2 : Nat), 0 < ttl2 →
      (get_short_term_key
        (store_short_term (store_short_term st sid key v1 now ttl1) sid key v2 now ttl2)
        sid key now).1 = some v2) := by
  have hval : (get_short_term_key st sid key now).1 =
      (entries.filter
        (fun e => (e.key == key) && decide (now < e.expires_at))).getLast?.map
        MemEntry.value := by
    rw [get_short_term_key_some st sid key now entries hs]
    rw [reverse_find?_eq_getLast?_filter, cleanup_expired, List.filter_filter]
  refine ⟨?_, ?_, ?_⟩
  · intro hnil
    rw [hval, hnil]
    rfl
  · intro l e hle
    rw [hval, hle, List.getLast?_concat]
    rfl
  · intro v1 v2 ttl1 ttl2 httl
    have hE2 : (decide (now < now + ttl2)) = true := decide_eq_true (by omega)
    have hS2 := store_short_term_self
      (store_short_term st sid key v1 now ttl1) sid key v2 now ttl2
    rw [store_short_term_self st sid key v1 now ttl1] at hS2
    rw [Option.getD_some] at hS2
    rw [get_short_term_key_some _ sid key now _ hS2]
    rw [cleanup_append, cleanup_idem]
    have hone : cleanup_expired [(⟨key, v2, now, now + ttl2⟩ : MemEntry)] now =
        [⟨key, v2, now, now + ttl2⟩] := by
      simp only [cleanup_expired, List.filter, hE2]
    rw [hone, cleanup_append, cleanup_idem, hone, List.reverse_append]
    have hbeq : (key == key) = true := by simp
    simp [List.find?, hbeq]

/-- C10 witness: the single unexpired entry read at time 4, and shadowing
of two stores into the empty state. -/
theorem hrC10_w :
    memOne.short_term "s" = some [⟨"k", CtxVal.str "v", 0, 5⟩] ∧
    (get_short_term_key memOne "s" "k" 4).1 = some (CtxVal.str "v") ∧
    (get_short_term_key
      (store_short_term (store_short_term memOne "s" "k" (CtxVal.str "v1") 7 9)
        "s" "k" (CtxVal.str "v2") 7 9)
      "s" "k" 7).1 = some (CtxVal.str "v2") :=
  ⟨rfl,
   (hrC10 memOne "s" "k" 4 [⟨"k", CtxVal.str "v", 0, 5⟩] rfl).2.1 []
     ⟨"k", CtxVal.str "v", 0, 5⟩ rfl,
   (hrC10 memOne "s" "k" 7 [⟨"k", CtxVal.str "v", 0, 5⟩] rfl).2.2 (CtxVal.str "v1")
     (CtxVal.str "v2") 9 9 (by omega)⟩

/-- C9 counterexample: on the five-result scenario (2 failures, 3
successes with messages A, B, C) the synthesized message is the
newline-joined concatenation PLUS the multi-task summary line — not
exactly the newline-joined concatenation. -/
theorem hrC9_cex :
    (generate_response exResults5).message = "A\nB\nC\n\nCompleted 3 tasks." ∧
    "A\nB\nC\n\nCompleted 3 tasks." ≠ "A\nB\nC" := by
  constructor
  · rfl
  · decide

/-- C9 (amended): when exactly three results succeed and each carries a
nonempty message, the synthesized final message is the newline-joined
concatenation of the three success messages followed by the summary suffix
"\n\nCompleted 3 tasks."; and for any results, the aggregated next-actions
list (when present) has no duplicates and at most 5 entries. -/
theorem hrC9 (results : List TaskResult) (r1 r2 r3 : TaskResult)
    (m1 m2 m3 : String)
    (hf : results.filter (fun r => r.success) = [r1, r2, r3])
    (h1 : r1.message = some m1) (e1 : m1 ≠ "")
    (h2 : r2.message = some m2) (e2 : m2 ≠ "")
    (h3 : r3.message = some m3) (e3 : m3 ≠ "") :
    (generate_response results).message =
      joinSep "\n" [m1, m2, m3] ++ "\n\nCompleted 3 tasks." ∧
    (∀ acts, (generate_response results).next_actions = some acts →
      acts.Nodup ∧ acts.length ≤ 5) := by
  have b1 : (m1 == "") = false := beq_eq_false_iff_ne.mpr e1
  have b2 : (m2 == "") = false := beq_eq_false_iff_ne.mpr e2
  have b3 : (m3 == "") = false := beq_eq_false_iff_ne.mpr e3
  constructor
  · simp only [generate_response, hf, List.isEmpty_cons, Bool.false_eq_true,
      if_false, List.filterMap_cons, h1, h2, h3, strTruthy, b1, b2, b3,
      Bool.not_false, if_true, List.filterMap_nil, List.length_cons,
      List.length_nil]
    have hcat : "\n\nCompleted " ++ (toString (3 : Nat) ++ " tasks.") =
        "\n\nCompleted 3 tasks." := by decide
    rw [String.append_assoc, String.append_assoc, hcat]
    rw [if_pos (by omega)]
  · intro acts hacts
    simp only [generate_response, hf, List.isEmpty_cons, Bool.false_eq_true,
      if_false] at hacts
    split at hacts
    · exact absurd hacts (by simp)
    · obtain rfl := Option.some.inj hacts
      refine ⟨List.Nodup.sublist (List.take_sublist _ _) (List.nodup_dedup _), ?_⟩
      rw [List.length_take]
      exact min_le_left _ _

/-- C9 witness: the concrete five-result scenario. -/
theorem hrC9_w :
    exResults5.filter (fun r => r.success) = [exS1, exS2, exS3] ∧
    (generate_response exResults5).message =
      joinSep "\n" ["A", "B", "C"] ++ "\n\nCompleted 3 tasks." :=
  ⟨by decide,
   (hrC9 exResults5 exS1 exS2 exS3 "A" "B" "C" (by decide) rfl (by decide)
     rfl (by decide) rfl (by decide)).1⟩

end HRCopilot
